import Mathlib

/-!
Verification of the BetterMintModded engine bridge core
(src/EngineWS/main.py: class EngineChess, create_fastapi_app websocket
endpoint; src/EngineWS/gui/main_window.py: ServerThread.update_engines).

The Python code is shallowly embedded: the engine wrapper becomes a
structure with explicit state, each method a pure state transformer, and
the asynchronous poll loop a step function.  Subprocess stdin writes are
recorded in a `written` list; the stdout reader thread buffer
(queueOutput) is the `outq` list; exceptions become `Except` errors.
-/

/-- Model of main.py class EngineChess.  Fields map to the Python
attributes: `pending` is the FIFO `_command_queue`, `written` is the
sequence of commands written to the subprocess stdin so far, `has_quit`
is `_has_quit_command_been_sent`, `stdin_open` is the truthiness of
`self._engine.stdin`, `stdout_open` of `self._engine.stdout`, `crashed`
is `self._engine.poll() is not None`,
`outq` is the `queueOutput` buffer filled by the reader thread, and the
configuration fields hold the (string-formatted) values taken from
`maia_config`, `book_config` and `tablebase_config`. -/
structure EngineChess where
  is_maia : Bool
  maia_weights : Option String
  nodes_limit : String
  use_slowmover : Bool
  opening_book : Option String
  tablebase_path : Option String
  is_initialized : Bool
  pending : List String
  written : List String
  has_quit : Bool
  stdin_open : Bool
  stdout_open : Bool
  crashed : Bool
  outq : List String
deriving DecidableEq, Repr

/-- EngineChess.put: append the command to the FIFO command queue. -/
def EngineChess.put (e : EngineChess) (cmd : String) : EngineChess :=
  { e with pending := e.pending ++ [cmd] }

/-- EngineChess.send_next_command: if the queue is nonempty, pop the
oldest command; if stdin is present and no quit command has been sent,
write it to stdin (and record a sent quit).  There is no check of
`is_initialized` or of process liveness. -/
def EngineChess.send_next_command (e : EngineChess) : EngineChess :=
  match e.pending with
  | [] => e
  | cmd :: rest =>
    if e.stdin_open && !e.has_quit then
      { e with pending := rest, written := e.written ++ [cmd],
               has_quit := e.has_quit || (cmd == "quit") }
    else
      { e with pending := rest }

/-- The command sequence enqueued by EngineChess.initialize_maia on the
Maia branch, in source order: uci, the WeightsFile option when
configured, Threads 1, MinibatchSize 1, MaxPrefetch 0, the
NodesPerSecondLimit value, SlowMover 0 when use_slowmover is set, Book
and BookFile when an opening book is loaded, SyzygyPath when a
tablebase path is loaded, then isready. -/
def maiaInitCommands (e : EngineChess) : List String :=
  ["uci"]
  ++ (match e.maia_weights with
      | some w => ["setoption name WeightsFile value " ++ w]
      | none => [])
  ++ ["setoption name Threads value 1",
      "setoption name MinibatchSize value 1",
      "setoption name MaxPrefetch value 0",
      "setoption name NodesPerSecondLimit value " ++ e.nodes_limit]
  ++ (if e.use_slowmover then ["setoption name SlowMover value 0"] else [])
  ++ (match e.opening_book with
      | some b => ["setoption name Book value true",
                   "setoption name BookFile value " ++ b]
      | none => [])
  ++ (match e.tablebase_path with
      | some t => ["setoption name SyzygyPath value " ++ t]
      | none => [])
  ++ ["isready"]

/-- The command sequence enqueued by EngineChess.initialize_maia on the
non-Maia branch, in source order. -/
def standardInitCommands (e : EngineChess) : List String :=
  ["uci"]
  ++ (match e.opening_book with
      | some b =>
        (["Book", "BookFile", "OwnBook", "UseBook"].map
          (fun o => "setoption name " ++ o ++ " value true"))
        ++ ["setoption name BookFile value " ++ b]
      | none => [])
  ++ (match e.tablebase_path with
      | some t =>
        ["SyzygyPath", "TablebaseePath", "Tablebase", "TbPath"].map
          (fun o => "setoption name " ++ o ++ " value " ++ t)
      | none => [])
  ++ ["isready"]

/-- EngineChess.initialize_maia: on either branch the handshake
commands are enqueued with put and `is_initialized` is set to true
immediately, in the same call; the Python code never waits for or reads
any acknowledgment line before setting the flag. -/
def EngineChess.initialize_maia (e : EngineChess) : EngineChess :=
  if e.is_maia && !e.is_initialized then
    { e with pending := e.pending ++ maiaInitCommands e, is_initialized := true }
  else if !e.is_maia && !e.is_initialized then
    { e with pending := e.pending ++ standardInitCommands e, is_initialized := true }
  else e

/-- Python str.startswith, translated on character lists: true when the
second string is a prefix of the first. -/
def strStartsWith (s pre : String) : Bool :=
  decide (pre.toList <+: s.toList)

/-- Python str.strip (no argument): remove whitespace from both ends,
translated on character lists. -/
def strTrim (s : String) : String :=
  String.mk (((s.toList.dropWhile Char.isWhitespace).reverse.dropWhile
    Char.isWhitespace).reverse)

/-- EngineChess._read_line: raises BrokenPipeError when stdout is gone,
raises a generic Exception when the process has exited (poll() not
None), otherwise returns the oldest buffered line stripped, or the
empty string when the buffer is empty.  Errors are modelled as
`Except.error` carrying the exception message. -/
def EngineChess.readLineRaw (e : EngineChess) : Except String String × EngineChess :=
  if !e.stdout_open then (Except.error "BrokenPipeError", e)
  else if e.crashed then (Except.error "The engine process has crashed", e)
  else
    match e.outq with
    | [] => (Except.ok "", e)
    | l :: rest => (Except.ok (strTrim l), { e with outq := rest })

/-- EngineChess.read_line: first send_next_command, then _read_line. -/
def EngineChess.read_line (e : EngineChess) : Except String String × EngineChess :=
  EngineChess.readLineRaw e.send_next_command

/-- Python substring membership test, as in the source expression
`"nodes" not in data`: true when the first string occurs as a
contiguous substring of the second, on character lists. -/
def containsSub (sub s : String) : Bool :=
  decide (sub.toList <:+: s.toList)

/-- process_client_command (the inner coroutine of websocket_endpoint):
routes one inbound client text line to every engine.  A line starting
with "go" goes to every engine, but a Maia engine whose line lacks the
substring "nodes" is given the constant "go nodes 1" instead.  A line
starting with "ucinewgame" enqueues the literal "ucinewgame" on every
engine, then "isready" on Maia engines, and calls initialize_maia on
uninitialized non-Maia engines.  Any other line is enqueued verbatim on
every engine. -/
def process_client_command (engines : List EngineChess) (data : String) :
    List EngineChess :=
  if strStartsWith data "go" then
    engines.map (fun e =>
      if e.is_maia then
        if containsSub "nodes" data then e.put data else e.put "go nodes 1"
      else e.put data)
  else if strStartsWith data "ucinewgame" then
    engines.map (fun e =>
      let e1 := e.put "ucinewgame"
      if e1.is_maia then e1.put "isready"
      else if !e1.is_initialized then e1.initialize_maia
      else e1)
  else
    engines.map (fun e => e.put data)

/-- The list comprehension `[engine.read_line() for engine in engines]`
of the poll loop: evaluates read_line on each engine left to right; the
first raised exception aborts the comprehension, leaving the engines
before it already stepped and the ones after it untouched. -/
def readAll : List EngineChess → Except String (List String) × List EngineChess
  | [] => (Except.ok [], [])
  | e :: es =>
    match e.read_line with
    | (Except.error m, e1) => (Except.error m, e1 :: es)
    | (Except.ok l, e1) =>
      match readAll es with
      | (Except.error m, es1) => (Except.error m, e1 :: es1)
      | (Except.ok ls, es1) => (Except.ok (l :: ls), e1 :: es1)

/-- Model of one registered websocket connection: `connected` is
`conn.client_state == WebSocketState.CONNECTED`, `sendFails` records
whether `conn.send_text` raises. -/
structure Conn where
  id : Nat
  connected : Bool
  sendFails : Bool
deriving DecidableEq, Repr

/-- The disconnected_connections set collected while iterating once
over the full registry for one response line: a connection is collected
when it is not in the connected state or its send raises.  The registry
itself is not modified during this pass. -/
def sweepDisconnected (registry : List Conn) : List Conn :=
  registry.foldl
    (fun acc c => if c.connected && !c.sendFails then acc else acc ++ [c]) []

/-- One broadcast sweep for one response line: iterate over the whole
registry collecting failures, then remove them from the registry in a
single set-difference step after the iteration completes
(`active_connections -= disconnected_connections`). -/
def broadcastOne (registry : List Conn) : List Conn :=
  let dis := sweepDisconnected registry
  registry.filter (fun c => decide (c ∉ dis))

/-- Outcome of one iteration of the websocket poll loop. -/
inductive PollOutcome where
  | broadcasted (lines : List String) (registry : List Conn)
  | slept (registry : List Conn)
  | broke (msg : String) (registry : List Conn)
deriving DecidableEq, Repr

/-- One iteration of the `while True` poll loop of websocket_endpoint:
read one line from every engine; on an exception, print and break out
of the loop (no broadcast happens).  Otherwise drop empty strings
(`filter(None, responses)`); if any lines remain, broadcast each in
order, sweeping the registry once per line; if none remain, sleep. -/
def pollCycle (engines : List EngineChess) (registry : List Conn) :
    PollOutcome × List EngineChess :=
  match readAll engines with
  | (Except.error m, engines1) => (PollOutcome.broke m registry, engines1)
  | (Except.ok ls, engines1) =>
    let responses := ls.filter (fun l => l ≠ "")
    if responses.isEmpty then (PollOutcome.slept registry, engines1)
    else
      (PollOutcome.broadcasted responses
        (responses.foldl (fun reg _ => broadcastOne reg) registry), engines1)

/-- An operation on one engine command queue: a client command being
appended on receipt, or one send_next_command step of the poll loop. -/
inductive EngOp where
  | enqueue (c : String)
  | sendNext
deriving DecidableEq, Repr

/-- Apply one queue operation. -/
def applyOp (e : EngineChess) : EngOp → EngineChess
  | EngOp.enqueue c => e.put c
  | EngOp.sendNext => e.send_next_command

/-- Run a sequence of queue operations left to right. -/
def runOps (e : EngineChess) (ops : List EngOp) : EngineChess :=
  ops.foldl applyOp e

/-- The client commands of an operation sequence, in order of receipt. -/
def sentCommands : List EngOp → List String
  | [] => []
  | EngOp.enqueue c :: ops => c :: sentCommands ops
  | EngOp.sendNext :: ops => sentCommands ops

/-- A freshly constructed engine as left by `EngineChess.__init__`
(before any initialize_maia call): empty queues, no quit sent, both
pipes open, process alive. -/
def freshEngine (maia : Bool) : EngineChess :=
  { is_maia := maia, maia_weights := none, nodes_limit := "0.001",
    use_slowmover := false, opening_book := none, tablebase_path := none,
    is_initialized := false, pending := [], written := [],
    has_quit := false, stdin_open := true, stdout_open := true,
    crashed := false, outq := [] }

theorem fifo_aux (ops : List EngOp) :
    ∀ (e : EngineChess), e.stdin_open = true →
    ∃ k n, k ≤ n ∧ n ≤ (e.pending ++ sentCommands ops).length ∧
      (runOps e ops).written = e.written ++ (e.pending ++ sentCommands ops).take k ∧
      (runOps e ops).pending = (e.pending ++ sentCommands ops).drop n ∧
      (e.has_quit = true → k = 0) ∧
      (e.has_quit = false → "quit" ∉ (e.pending ++ sentCommands ops).take k → k = n) := by
  induction ops with
  | nil =>
    intro e _
    exact ⟨0, 0, Nat.le_refl 0, Nat.zero_le _,
      by simp [runOps, sentCommands], by simp [runOps, sentCommands],
      fun _ => rfl, fun _ _ => rfl⟩
  | cons op ops ih =>
    intro e hs
    have hstep : ∀ a, runOps e (a :: ops) = runOps (applyOp e a) ops := fun _ => rfl
    cases op with
    | enqueue c =>
      obtain ⟨k, n, hkn, hn, hw, hp, hq1, hq2⟩ := ih (e.put c) hs
      have hS : (e.put c).pending ++ sentCommands ops
          = e.pending ++ sentCommands (EngOp.enqueue c :: ops) := by
        simp [EngineChess.put, sentCommands]
      rw [hS] at hn hw hp hq2
      exact ⟨k, n, hkn, hn, hw, hp, hq1, hq2⟩
    | sendNext =>
      rcases hpe : e.pending with _ | ⟨c, rest⟩
      · have he' : applyOp e EngOp.sendNext = e := by
          simp [applyOp, EngineChess.send_next_command, hpe]
        obtain ⟨k, n, hkn, hn, hw, hp, hq1, hq2⟩ := ih e hs
        rw [hstep, he']
        rw [hpe] at hn hw hp hq2
        exact ⟨k, n, hkn, hn, hw, hp, hq1, hq2⟩
      · cases hq : e.has_quit with
        | false =>
          have he' : applyOp e EngOp.sendNext =
              { e with pending := rest, written := e.written ++ [c],
                       has_quit := (c == "quit") } := by
            simp [applyOp, EngineChess.send_next_command, hpe, hs, hq]
          obtain ⟨k, n, hkn, hn, hw, hp, hq1, hq2⟩ :=
            ih { e with pending := rest, written := e.written ++ [c],
                        has_quit := (c == "quit") } hs
          refine ⟨k + 1, n + 1, Nat.succ_le_succ hkn, ?_, ?_, ?_, ?_, ?_⟩
          · simpa [sentCommands] using Nat.succ_le_succ hn
          · rw [hstep, he']
            simpa [sentCommands, List.take_succ_cons] using hw
          · rw [hstep, he']
            simpa [sentCommands, List.drop_succ_cons] using hp
          · intro hcontra
            exact absurd hcontra (by simp)
          · intro _ hmem
            simp only [sentCommands, List.cons_append, List.take_succ_cons,
              List.mem_cons, not_or] at hmem
            have hc : (c == "quit") = false := by
              cases hbe : c == "quit" with
              | false => rfl
              | true => exact absurd (Eq.symm (eq_of_beq hbe)) hmem.1
            have := hq2 hc (by simpa [sentCommands] using hmem.2)
            omega
        | true =>
          have he' : applyOp e EngOp.sendNext = { e with pending := rest } := by
            simp [applyOp, EngineChess.send_next_command, hpe, hq]
          obtain ⟨k, n, hkn, hn, hw, hp, hq1, hq2⟩ :=
            ih { e with pending := rest } hs
          have hk0 : k = 0 := hq1 hq
          refine ⟨0, n + 1, Nat.zero_le _, ?_, ?_, ?_, fun _ => rfl, ?_⟩
          · simpa [sentCommands] using Nat.succ_le_succ hn
          · rw [hstep, he']
            rw [hk0] at hw
            simpa [sentCommands] using hw
          · rw [hstep, he']
            simpa [sentCommands, List.drop_succ_cons] using hp
          · intro hcontra
            exact absurd hcontra (by simp)

/-- Claim C1: per-engine FIFO.  For any interleaving of client-command
receipts (put) and poll-loop flush steps (send_next_command) applied to
a fresh engine, the sequence written to the engine stdin is an initial
segment of the client commands in the order they were sent — no
reordering ever occurs — and, as long as no quit command is among them,
no command is lost: the written prefix plus the still-queued suffix is
exactly the client sequence. -/
theorem claim1_fifo_per_engine (ops : List EngOp) (e : EngineChess)
    (hp : e.pending = []) (hw : e.written = []) (hq : e.has_quit = false)
    (hs : e.stdin_open = true) :
    (∃ k, (runOps e ops).written = (sentCommands ops).take k) ∧
    ("quit" ∉ sentCommands ops →
      (runOps e ops).written ++ (runOps e ops).pending = sentCommands ops) := by
  obtain ⟨k, n, hkn, hn, hwr, hpe, _, hq2⟩ := fifo_aux ops e hs
  simp only [hp, hw, List.nil_append] at hwr hpe hq2
  constructor
  · exact ⟨k, hwr⟩
  · intro hnq
    have hkeq : k = n := hq2 hq (fun hmem => hnq (List.mem_of_mem_take hmem))
    rw [hwr, hpe, hkeq, List.take_append_drop]

/-- Witness for claim C1 at a concrete trace. -/
theorem claim1_fifo_per_engine_witness :
    (∃ k, (runOps (freshEngine false)
        [EngOp.enqueue "position startpos", EngOp.enqueue "go depth 5",
         EngOp.sendNext, EngOp.sendNext]).written
      = (sentCommands
        [EngOp.enqueue "position startpos", EngOp.enqueue "go depth 5",
         EngOp.sendNext, EngOp.sendNext]).take k) ∧
    ("quit" ∉ sentCommands
        [EngOp.enqueue "position startpos", EngOp.enqueue "go depth 5",
         EngOp.sendNext, EngOp.sendNext] →
      (runOps (freshEngine false)
        [EngOp.enqueue "position startpos", EngOp.enqueue "go depth 5",
         EngOp.sendNext, EngOp.sendNext]).written
      ++ (runOps (freshEngine false)
        [EngOp.enqueue "position startpos", EngOp.enqueue "go depth 5",
         EngOp.sendNext, EngOp.sendNext]).pending
      = sentCommands
        [EngOp.enqueue "position startpos", EngOp.enqueue "go depth 5",
         EngOp.sendNext, EngOp.sendNext]) :=
  claim1_fifo_per_engine _ (freshEngine false) rfl rfl rfl rfl

theorem go_branch_eq (engines : List EngineChess) (data : String)
    (h : strStartsWith data "go" = true) :
    process_client_command engines data
      = engines.map (fun e =>
          if e.is_maia then
            if containsSub "nodes" data then e.put data
            else e.put "go nodes 1"
          else e.put data) := by
  simp [process_client_command, h]

/-- Claim C2: for every inbound client command that starts with "go",
every Maia engine whose command carries no node budget (no "nodes"
substring) has the constant "go nodes 1" enqueued in its place before
it can reach the subprocess, while every non-Maia engine has the "go"
command enqueued verbatim, never rewritten. -/
theorem claim2_go_node_budget (engines : List EngineChess) (data : String)
    (h : strStartsWith data "go" = true) :
    (process_client_command engines data).map EngineChess.pending
      = engines.map (fun e =>
          e.pending ++
            [if e.is_maia && !containsSub "nodes" data then "go nodes 1"
             else data]) := by
  rw [go_branch_eq engines data h, List.map_map]
  apply List.map_congr_left
  intro e _
  cases hm : e.is_maia with
  | false => simp [Function.comp, hm, EngineChess.put]
  | true =>
    cases hn : containsSub "nodes" data with
    | false => simp [Function.comp, hm, hn, EngineChess.put]
    | true => simp [Function.comp, hm, hn, EngineChess.put]

/-- Witness for claim C2: one Maia and one standard engine receiving
"go depth 10" (no node budget). -/
theorem claim2_go_node_budget_witness :
    (process_client_command [freshEngine true, freshEngine false]
        "go depth 10").map EngineChess.pending
      = [freshEngine true, freshEngine false].map (fun e =>
          e.pending ++
            [if e.is_maia && !containsSub "nodes" "go depth 10"
             then "go nodes 1" else "go depth 10"]) :=
  claim2_go_node_budget [freshEngine true, freshEngine false]
    "go depth 10" (by decide)

/-- Claim C10 (implicit): the node-budget check for a Maia engine is a
raw substring test for "nodes".  A command starting with "go" without
that substring is replaced wholesale by the constant "go nodes 1",
discarding every other search parameter; a command containing "nodes"
anywhere is forwarded unchanged. -/
theorem claim10_substring_node_check (e : EngineChess) (data : String)
    (h : strStartsWith data "go" = true) (hm : e.is_maia = true) :
    (process_client_command [e] data).map EngineChess.pending
      = [e.pending ++
          [if containsSub "nodes" data then data else "go nodes 1"]] := by
  rw [go_branch_eq [e] data h]
  cases hn : containsSub "nodes" data with
  | false => simp [hm, hn, EngineChess.put]
  | true => simp [hm, hn, EngineChess.put]

/-- Witness for claim C10: "go depth 10" and "go movetime 5000" are
both replaced wholesale by "go nodes 1" for a Maia engine, and a
command containing "nodes" passes through unchanged. -/
theorem claim10_substring_node_check_witness :
    ((process_client_command [freshEngine true] "go depth 10").map
        EngineChess.pending
      = [(freshEngine true).pending ++
          [if containsSub "nodes" "go depth 10" then "go depth 10"
           else "go nodes 1"]])
    ∧ ((process_client_command [freshEngine true] "go movetime 5000").map
        EngineChess.pending
      = [(freshEngine true).pending ++
          [if containsSub "nodes" "go movetime 5000" then "go movetime 5000"
           else "go nodes 1"]])
    ∧ ((process_client_command [freshEngine true] "go nodes 500").map
        EngineChess.pending
      = [(freshEngine true).pending ++
          [if containsSub "nodes" "go nodes 500" then "go nodes 500"
           else "go nodes 1"]]) :=
  ⟨claim10_substring_node_check (freshEngine true) "go depth 10"
      (by decide) rfl,
   claim10_substring_node_check (freshEngine true) "go movetime 5000"
      (by decide) rfl,
   claim10_substring_node_check (freshEngine true) "go nodes 500"
      (by decide) rfl⟩

theorem sweepDisconnected_eq (registry : List Conn) :
    sweepDisconnected registry
      = registry.filter (fun c => !(c.connected && !c.sendFails)) := by
  have aux : ∀ (l acc : List Conn),
      l.foldl (fun acc c =>
          if c.connected && !c.sendFails then acc else acc ++ [c]) acc
        = acc ++ l.filter (fun c => !(c.connected && !c.sendFails)) := by
    intro l
    induction l with
    | nil => intro acc; simp
    | cons x xs ih =>
      intro acc
      rw [List.foldl_cons, ih]
      cases hc : x.connected <;> cases hsf : x.sendFails <;>
        simp [List.filter_cons, hc, hsf]
  simpa [sweepDisconnected] using aux registry []

/-- Claim C5: during a broadcast sweep, a connection that is in a
non-connected state or whose write fails is collected into the
disconnected set built while iterating over the unchanged registry, and
it is absent from the registry produced by the single removal step that
follows the sweep — hence it is gone from the very next broadcast sweep
and never retried. -/
theorem claim5_failed_connection_pruned (registry : List Conn) (c : Conn)
    (hc : c ∈ registry) (hf : c.connected = false ∨ c.sendFails = true) :
    c ∈ sweepDisconnected registry ∧ c ∉ broadcastOne registry := by
  have hmem : c ∈ sweepDisconnected registry := by
    rw [sweepDisconnected_eq]
    refine List.mem_filter.mpr ⟨hc, ?_⟩
    rcases hf with hf | hf <;> simp [hf]
  refine ⟨hmem, fun habs => ?_⟩
  have := (List.mem_filter.mp habs).2
  simp only [decide_eq_true_eq] at this
  exact this hmem

/-- Witness for claim C5: a two-connection registry where the second
connection is disconnected. -/
theorem claim5_failed_connection_pruned_witness :
    (⟨1, false, false⟩ : Conn) ∈ sweepDisconnected
        [⟨0, true, false⟩, ⟨1, false, false⟩]
    ∧ (⟨1, false, false⟩ : Conn) ∉ broadcastOne
        [⟨0, true, false⟩, ⟨1, false, false⟩] :=
  claim5_failed_connection_pruned [⟨0, true, false⟩, ⟨1, false, false⟩]
    ⟨1, false, false⟩ (by decide) (Or.inl rfl)

theorem filter_nonblank_replicate (n : Nat) :
    ((List.replicate n "").filter (fun l => l ≠ "")).isEmpty = true := by
  induction n with
  | zero => rfl
  | succ n ihn => simp [List.replicate_succ, List.filter_cons, ihn]

theorem readAll_healthy (engines : List EngineChess)
    (h : ∀ e ∈ engines,
      e.pending = [] ∧ e.stdout_open = true ∧ e.crashed = false) :
    readAll engines
      = (Except.ok (engines.map (fun e =>
            match e.outq with
            | [] => ""
            | l :: _ => strTrim l)),
         engines.map (fun e => { e with outq := e.outq.tail })) := by
  induction engines with
  | nil => rfl
  | cons e es ih =>
    obtain ⟨hp, hso, hcr⟩ := h e (List.mem_cons_self e es)
    have hes := ih (fun x hx => h x (List.mem_cons_of_mem e hx))
    have hsend : e.send_next_command = e := by
      simp [EngineChess.send_next_command, hp]
    cases ho : e.outq with
    | nil =>
      have hread : e.read_line = (Except.ok "", e) := by
        simp [EngineChess.read_line, hsend, EngineChess.readLineRaw, hso,
          hcr, ho]
      have htl : e.outq.tail = e.outq := by simp [ho]
      have hstruct : ({ e with outq := e.outq.tail } : EngineChess) = e := by
        rw [htl]
      simp only [readAll, hread, hes, List.map_cons]
      rw [hstruct]
      simp [ho]
    | cons l rest =>
      have hread : e.read_line
          = (Except.ok (strTrim l), { e with outq := rest }) := by
        simp [EngineChess.read_line, hsend, EngineChess.readLineRaw, hso,
          hcr, ho]
      simp [readAll, hread, hes, ho]

/-- Claim C6 (amended): on each iteration of the poll loop, exactly one
buffered line per engine is read — the head of its output buffer — not
all currently buffered lines; the remaining buffered lines stay queued
for later iterations.  When no engine produces a non-empty line, the
iteration sleeps briefly instead of broadcasting or busy-spinning. -/
theorem claim6_poll_one_line_per_engine (engines : List EngineChess)
    (registry : List Conn)
    (h : ∀ e ∈ engines,
      e.pending = [] ∧ e.stdout_open = true ∧ e.crashed = false) :
    (pollCycle engines registry).2.map EngineChess.outq
      = engines.map (fun e => e.outq.tail)
    ∧ ((∀ e ∈ engines, e.outq = [] ∨ strTrim (e.outq.headD "") = "") →
        (pollCycle engines registry).1 = PollOutcome.slept registry) := by
  have hra := readAll_healthy engines h
  constructor
  · simp only [pollCycle, hra]
    split <;> simp [List.map_map, Function.comp]
  · intro hempty
    have hcond : ∀ a ∈ engines, (match a.outq with
        | [] => ""
        | l :: _ => strTrim l) = "" := by
      intro a ha
      rcases hempty a ha with h0 | h0
      · simp [h0]
      · cases ho : a.outq with
        | nil => rfl
        | cons l rest =>
          rw [ho] at h0
          simp only [List.headD_cons] at h0
          simpa [ho] using h0
    simp only [pollCycle, hra]
    split
    · rfl
    · next hneg =>
        exfalso
        apply hneg
        have hmapeq : engines.map (fun e =>
            match e.outq with
            | [] => ""
            | l :: _ => strTrim l) = engines.map (fun _ => "") :=
          List.map_congr_left hcond
        rw [hmapeq, List.map_const']
        exact filter_nonblank_replicate _

/-- An engine with two buffered output lines, used to exercise the poll
loop. -/
def twoLineEngine : EngineChess :=
  { freshEngine false with outq := ["info depth 1", "bestmove e2e4"] }

/-- Counterexample to claim C6 as stated: the poll loop does not drain
all currently buffered output lines of an engine in one iteration.  An
engine with two buffered lines has only the first broadcast in the
cycle; the second is still buffered afterwards. -/
theorem claim6_counterexample :
    (pollCycle [twoLineEngine] []).1
      = PollOutcome.broadcasted ["info depth 1"] []
    ∧ (pollCycle [twoLineEngine] []).2.map EngineChess.outq
      = [["bestmove e2e4"]]
    ∧ (["bestmove e2e4"] : List String) ≠ [] := by decide

/-- Witness for claim C6 (amended) at a concrete input. -/
theorem claim6_poll_one_line_per_engine_witness :
    ((pollCycle [twoLineEngine] []).2.map EngineChess.outq
      = [twoLineEngine].map (fun e => e.outq.tail))
    ∧ ((∀ e ∈ [twoLineEngine],
          e.outq = [] ∨ strTrim (e.outq.headD "") = "") →
        (pollCycle [twoLineEngine] []).1 = PollOutcome.slept []) :=
  claim6_poll_one_line_per_engine [twoLineEngine] [] (by decide)

/-- An engine whose subprocess exited after a successful start, with a
line still buffered by the reader thread. -/
def crashedEngine : EngineChess :=
  { freshEngine false with crashed := true, outq := ["info string late"] }

/-- A healthy engine with a pending best move in its output buffer. -/
def survivorEngine : EngineChess :=
  { freshEngine false with outq := ["bestmove e2e4"] }

/-- Claim C3 (amended): after the engine subprocess exits, _read_line
raises a generic Exception carrying "The engine process has crashed" —
it does not return empty, even when lines are still buffered — and the
websocket poll loop catches the exception and breaks: the iteration
broadcasts nothing and surviving engines' output stops reaching the
client over that loop.  Writes are not gated on process liveness:
send_next_command still pops a queued command and writes it to the dead
process pipe (no ProcessUnavailable-style check exists). -/
theorem claim3_crash_raises_and_breaks (e : EngineChess)
    (es : List EngineChess) (registry : List Conn) (cmd : String)
    (hcr : e.crashed = true) (hso : e.stdout_open = true)
    (hp : e.pending = []) (hs : e.stdin_open = true)
    (hq : e.has_quit = false) :
    e.readLineRaw.1 = Except.error "The engine process has crashed"
    ∧ (pollCycle (e :: es) registry).1
        = PollOutcome.broke "The engine process has crashed" registry
    ∧ ({ e with pending := [cmd] } : EngineChess).send_next_command.written
        = e.written ++ [cmd] := by
  have hraw : e.readLineRaw
      = (Except.error "The engine process has crashed", e) := by
    simp [EngineChess.readLineRaw, hso, hcr]
  refine ⟨by rw [hraw], ?_, ?_⟩
  · have hsend : e.send_next_command = e := by
      simp [EngineChess.send_next_command, hp]
    have hread : e.read_line
        = (Except.error "The engine process has crashed", e) := by
      rw [EngineChess.read_line, hsend, hraw]
    simp [pollCycle, readAll, hread]
  · simp [EngineChess.send_next_command, hs, hq]

/-- Counterexample to claim C3 as stated: with one crashed engine and
one healthy engine holding a best move, _read_line on the crashed
engine is an exception, not empty, and the poll cycle breaks without
delivering the surviving engine's output to the connected client. -/
theorem claim3_counterexample :
    crashedEngine.readLineRaw.1 ≠ Except.ok ""
    ∧ (pollCycle [crashedEngine, survivorEngine] [⟨0, true, false⟩]).1
        = PollOutcome.broke "The engine process has crashed"
            [⟨0, true, false⟩] :=
  ⟨fun h => Except.noConfusion h, rfl⟩

/-- Witness for claim C3 (amended) at a concrete crashed engine. -/
theorem claim3_crash_raises_and_breaks_witness :
    crashedEngine.readLineRaw.1
        = Except.error "The engine process has crashed"
    ∧ (pollCycle (crashedEngine :: [survivorEngine]) []).1
        = PollOutcome.broke "The engine process has crashed" []
    ∧ ({ crashedEngine with pending := ["go"] } : EngineChess).send_next_command.written
        = crashedEngine.written ++ ["go"] :=
  claim3_crash_raises_and_breaks crashedEngine [survivorEngine] [] "go"
    rfl rfl rfl rfl rfl

/-- Claim C4 (amended): send_next_command never consults the handshake
state.  A queued command is flushed to the subprocess whenever the
queue is nonempty, stdin exists, and no quit command has been sent —
regardless of is_initialized — so a client command enqueued before
initialization is written before the handshake. -/
theorem claim4_flush_ignores_ready (e : EngineChess) (cmd : String)
    (rest : List String) (hp : e.pending = cmd :: rest)
    (hs : e.stdin_open = true) (hq : e.has_quit = false) :
    e.send_next_command.written = e.written ++ [cmd]
    ∧ e.send_next_command.is_initialized = e.is_initialized := by
  constructor <;> simp [EngineChess.send_next_command, hp, hs, hq]

/-- Counterexample to claim C4 as stated: a standard engine is left
uninitialized at server start (only Maia engines get initialize_maia);
a client "position startpos" routed to it is enqueued and then written
by the poll loop while is_initialized is still false — client traffic
reaches the ProcessChannel before the handshake state is Ready. -/
theorem claim4_counterexample :
    (pollCycle (process_client_command [freshEngine false]
        "position startpos") []).2.map
      (fun e => (e.written, e.is_initialized))
      = [(["position startpos"], false)] := by decide

/-- Witness for claim C4 (amended) at a concrete uninitialized engine. -/
theorem claim4_flush_ignores_ready_witness :
    ({ freshEngine false with
        pending := ["position startpos"] } : EngineChess).send_next_command.written
      = ({ freshEngine false with
        pending := ["position startpos"] } : EngineChess).written
        ++ ["position startpos"]
    ∧ ({ freshEngine false with
        pending := ["position startpos"] } : EngineChess).send_next_command.is_initialized
      = ({ freshEngine false with
        pending := ["position startpos"] } : EngineChess).is_initialized :=
  claim4_flush_ignores_ready _ "position startpos" [] rfl rfl rfl

theorem ucinewgame_not_go (data : String)
    (h : strStartsWith data "ucinewgame" = true) :
    strStartsWith data "go" = false := by
  simp only [strStartsWith, decide_eq_true_eq] at h
  simp only [strStartsWith, decide_eq_false_iff_not]
  intro hgo
  obtain ⟨t1, ht1⟩ := hgo
  obtain ⟨t2, ht2⟩ := h
  rw [show ("go".toList : List Char) = ['g', 'o'] from rfl] at ht1
  rw [show ("ucinewgame".toList : List Char)
      = ['u', 'c', 'i', 'n', 'e', 'w', 'g', 'a', 'm', 'e'] from rfl] at ht2
  rw [← ht1] at ht2
  simp only [List.cons_append, List.cons.injEq] at ht2
  exact absurd ht2.1 (by decide)

/-- Claim C8 (amended): a client command starting with "ucinewgame"
enqueues the literal "ucinewgame" on every engine, but it triggers the
handshake only for uninitialized non-Maia (Standard) engines; a Maia
engine — initialized or not — merely gets an extra "isready" enqueued
and its handshake state is left unchanged. -/
theorem claim8_newgame_handshake_standard_only (engines : List EngineChess)
    (data : String) (h : strStartsWith data "ucinewgame" = true) :
    (process_client_command engines data).map
      (fun e => (e.is_initialized, e.pending))
      = engines.map (fun e =>
          if e.is_maia then
            (e.is_initialized, e.pending ++ ["ucinewgame", "isready"])
          else if e.is_initialized then
            (true, e.pending ++ ["ucinewgame"])
          else
            (true, e.pending ++ "ucinewgame" :: standardInitCommands e)) := by
  have hgo := ucinewgame_not_go data h
  have hred : process_client_command engines data
      = engines.map (fun e =>
          let e1 := e.put "ucinewgame"
          if e1.is_maia then e1.put "isready"
          else if !e1.is_initialized then e1.initialize_maia
          else e1) := by
    simp [process_client_command, hgo, h]
  rw [hred, List.map_map]
  apply List.map_congr_left
  intro e _
  cases hm : e.is_maia with
  | true => simp [Function.comp, EngineChess.put, hm]
  | false =>
    cases hi : e.is_initialized with
    | true => simp [Function.comp, EngineChess.put, hm, hi]
    | false =>
      simp [Function.comp, EngineChess.put, EngineChess.initialize_maia,
        standardInitCommands, hm, hi]

/-- Counterexample to claim C8 as stated: an uninitialized Maia engine
receiving "ucinewgame" does not have its handshake triggered — it only
gets "ucinewgame" and "isready" enqueued and stays uninitialized,
whereas initialize_maia would have set is_initialized and enqueued the
full option sequence starting with "uci". -/
theorem claim8_counterexample :
    (process_client_command [freshEngine true] "ucinewgame").map
        (fun e => (e.is_initialized, e.pending))
      = [(false, ["ucinewgame", "isready"])] := by decide

/-- Witness for claim C8 (amended): one Maia engine, one uninitialized
standard engine, one initialized standard engine. -/
theorem claim8_newgame_handshake_standard_only_witness :
    (process_client_command
        [freshEngine true, freshEngine false,
         { freshEngine false with is_initialized := true }]
        "ucinewgame").map (fun e => (e.is_initialized, e.pending))
      = [freshEngine true, freshEngine false,
         { freshEngine false with is_initialized := true }].map (fun e =>
          if e.is_maia then
            (e.is_initialized, e.pending ++ ["ucinewgame", "isready"])
          else if e.is_initialized then
            (true, e.pending ++ ["ucinewgame"])
          else
            (true, e.pending ++ "ucinewgame" :: standardInitCommands e)) :=
  claim8_newgame_handshake_standard_only
    [freshEngine true, freshEngine false,
     { freshEngine false with is_initialized := true }]
    "ucinewgame" (by decide)

/-- A fully configured Maia engine (weights, slow-mover disable,
opening book and tablebase all set). -/
def maiaConfigured : EngineChess :=
  { freshEngine true with
      maia_weights := some "maia-1500.pb.gz",
      use_slowmover := true,
      opening_book := some "book.bin",
      tablebase_path := some "syzygy" }

/-- Claim C9 (amended): for a fully configured uninitialized Maia
engine, initialize_maia enqueues exactly, in order: the UCI
identification, the weight-file option, the concurrency option
Threads 1, the minimal batching options MinibatchSize 1 and
MaxPrefetch 0, the nodes-per-second throttle, the slow-mover disable,
the book options, the tablebase option, then the readiness probe — and
it marks the handle initialized immediately upon enqueuing, before any
of these commands is written and without waiting for an acknowledgment
of the probe. -/
theorem claim9_maia_handshake_order (e : EngineChess) (w b t : String)
    (hm : e.is_maia = true) (hi : e.is_initialized = false)
    (hw : e.maia_weights = some w) (hsm : e.use_slowmover = true)
    (hb : e.opening_book = some b) (ht : e.tablebase_path = some t) :
    e.initialize_maia.pending
      = e.pending ++
        ["uci",
         "setoption name WeightsFile value " ++ w,
         "setoption name Threads value 1",
         "setoption name MinibatchSize value 1",
         "setoption name MaxPrefetch value 0",
         "setoption name NodesPerSecondLimit value " ++ e.nodes_limit,
         "setoption name SlowMover value 0",
         "setoption name Book value true",
         "setoption name BookFile value " ++ b,
         "setoption name SyzygyPath value " ++ t,
         "isready"]
    ∧ e.initialize_maia.is_initialized = true
    ∧ e.initialize_maia.written = e.written := by
  refine ⟨?_, ?_, ?_⟩ <;>
    simp [EngineChess.initialize_maia, maiaInitCommands, hm, hi, hw, hsm,
      hb, ht]

/-- Counterexample to claim C9 as stated: the handle does not
transition to Ready on acknowledgment of the readiness probe.  A fresh
Maia engine whose process has produced no output at all (so no probe
acknowledgment can have been read) and whose stdin has received nothing
(the probe has not even been sent) is already marked initialized by
initialize_maia. -/
theorem claim9_counterexample :
    (freshEngine true).initialize_maia.is_initialized = true
    ∧ (freshEngine true).initialize_maia.written = []
    ∧ (freshEngine true).outq = [] := by decide

/-- Witness for claim C9 (amended) on the fully configured engine. -/
theorem claim9_maia_handshake_order_witness :
    maiaConfigured.initialize_maia.pending
      = maiaConfigured.pending ++
        ["uci",
         "setoption name WeightsFile value " ++ "maia-1500.pb.gz",
         "setoption name Threads value 1",
         "setoption name MinibatchSize value 1",
         "setoption name MaxPrefetch value 0",
         "setoption name NodesPerSecondLimit value "
           ++ maiaConfigured.nodes_limit,
         "setoption name SlowMover value 0",
         "setoption name Book value true",
         "setoption name BookFile value " ++ "book.bin",
         "setoption name SyzygyPath value " ++ "syzygy",
         "isready"]
    ∧ maiaConfigured.initialize_maia.is_initialized = true
    ∧ maiaConfigured.initialize_maia.written = maiaConfigured.written :=
  claim9_maia_handshake_order maiaConfigured "maia-1500.pb.gz" "book.bin"
    "syzygy" rfl rfl rfl rfl rfl rfl

/-- One observable event of ServerThread.update_engines
(gui/main_window.py): quitting an old engine, or constructing (and
initializing) a new engine from one configuration entry. -/
inductive UEvent where
  | quitOld (name : String)
  | constructNew (name : String)
deriving DecidableEq, Repr

/-- One configuration entry passed to update_engines: an engine name
and whether the EngineChess construction plus initialize_engine body of
its try block succeeds. -/
structure EngCfg where
  name : String
  ok : Bool
deriving DecidableEq, Repr

/-- One iteration of the construction loop of update_engines: on
success, record the construction event and append the engine to
self.engines; on failure, log and skip. -/
def constructStep : List UEvent × List String → EngCfg →
    List UEvent × List String
  | (evs, engs), c =>
    if c.ok then (evs ++ [UEvent.constructNew c.name], engs ++ [c.name])
    else (evs, engs)

/-- ServerThread.update_engines: quit every old engine in order, clear
self.engines, then run the construction loop over the new configs.
Returns the chronological event trace and the final engine list. -/
def update_engines (old : List String) (configs : List EngCfg) :
    List UEvent × List String :=
  let evs0 := old.foldl (fun evs e => evs ++ [UEvent.quitOld e]) []
  configs.foldl constructStep (evs0, [])

/-- The successive values of self.engines observable during
update_engines: the old list while the quit loop runs, the empty list
right after self.engines.clear(), then one snapshot per configuration
processed by the construction loop. -/
def update_engines_states (old : List String) (configs : List EngCfg) :
    List (List String) :=
  [old, []] ++ (List.range configs.length).map
    (fun i => ((configs.take (i + 1)).foldl constructStep ([], [])).2)

theorem constructStep_fold (configs : List EngCfg) :
    ∀ (evs : List UEvent) (engs : List String),
    configs.foldl constructStep (evs, engs)
      = (evs ++ (configs.filter (fun c => c.ok)).map
            (fun c => UEvent.constructNew c.name),
         engs ++ (configs.filter (fun c => c.ok)).map
            (fun c => c.name)) := by
  induction configs with
  | nil => intro evs engs; simp
  | cons c cs ih =>
    intro evs engs
    cases hok : c.ok with
    | true => simp [List.foldl_cons, constructStep, hok, ih, List.filter_cons]
    | false => simp [List.foldl_cons, constructStep, hok, ih, List.filter_cons]

theorem quit_fold (old : List String) :
    ∀ (evs : List UEvent),
    old.foldl (fun evs e => evs ++ [UEvent.quitOld e]) evs
      = evs ++ old.map UEvent.quitOld := by
  induction old with
  | nil => intro evs; simp
  | cons e es ih => intro evs; simp [List.foldl_cons, ih]

/-- Claim C7 (amended): update_engines quits and discards the entire
old generation first and only then constructs and initializes the new
engines, appending each to the live list as it is built: every quitOld
event precedes every constructNew event in the trace, and immediately
after the clear the active engine list is empty — an intermediate state
with zero engines exists even when the new generation is non-empty.
The final list holds exactly the successfully constructed engines. -/
theorem claim7_old_generation_quit_first (old : List String)
    (configs : List EngCfg) :
    (update_engines old configs).1
      = old.map UEvent.quitOld
          ++ (configs.filter (fun c => c.ok)).map
              (fun c => UEvent.constructNew c.name)
    ∧ (update_engines old configs).2
      = (configs.filter (fun c => c.ok)).map (fun c => c.name)
    ∧ [] ∈ update_engines_states old configs := by
  refine ⟨?_, ?_, ?_⟩
  · simp [update_engines, quit_fold, constructStep_fold]
  · simp [update_engines, quit_fold, constructStep_fold]
  · simp [update_engines_states]

/-- Counterexample to claim C7 as stated: replacing engine set {A} by
{B}, the old engine A is quit before the new engine B is constructed,
and the active set passes through the empty list although the new
generation is non-empty. -/
theorem claim7_counterexample :
    (update_engines ["A"] [⟨"B", true⟩]).1
      = [UEvent.quitOld "A", UEvent.constructNew "B"]
    ∧ [] ∈ update_engines_states ["A"] [⟨"B", true⟩]
    ∧ (update_engines ["A"] [⟨"B", true⟩]).2 = ["B"] := by decide
